import Mathlib

/-!
Verification development for the threeBrainPy coordinate-transform core.

The Python source is shallowly embedded as follows:
* `numpy` float 4x4 arrays become `Matrix (Fin 4) (Fin 4) ℚ` (exact rationals
  in place of IEEE doubles; floating tolerance statements become exact ones);
* Python exceptions (`ValueError`, `numpy.linalg.LinAlgError`, ...) become an
  `Except PyError` result;
* a Python float that may be `nan` (absent cell) becomes `Option ℚ`, with
  `none` standing for a non-finite value, so `np.isfinite x` is `x.isSome`;
* the class `Mat44` (file `core/mat44.py`) becomes the structure `Mat44`
  below; its mutable `extra` dict is narrowed to the two keys the code ever
  stores (`missing`, `source_format`).
-/

namespace ThreeBrainPy

/-- Python exceptions raised by the embedded code paths. -/
inductive PyError where
  /-- `ValueError` with a message. -/
  | valueError (msg : String)
  /-- `numpy.linalg.LinAlgError` on inverting a singular matrix. -/
  | singularMatrix
  /-- any exception escaping a file read (`FileNotFoundError`, parse error...). -/
  | readFailure
  deriving Repr, DecidableEq

/-- Shorthand for the 4x4 rational matrices embedding numpy `(4,4)` float arrays. -/
abbrev M4 := Matrix (Fin 4) (Fin 4) ℚ

/-- Embedding of the `extra` side-channel dict of `Mat44`: the code only ever
stores the keys `missing` (a bool, absent means false) and `source_format`
(a string, `extra.get('source_format', None)` yields `none` when absent). -/
structure Extra where
  missing : Bool := false
  source_format : Option String := none
  deriving Repr, DecidableEq

/-- Embedding of `core/mat44.py` class `Mat44`: a 4x4 matrix with space and
modality endpoint tags.  Defaults mirror the Python constructor defaults. -/
structure Mat44 where
  mat : M4 := 1
  space_from : String := "ras"
  space_to : String := "ras"
  modality_from : String := "T1"
  modality_to : String := "T1"
  extra : Extra := {}
  deriving DecidableEq

/-- Row-major reshape of a flat 16-element buffer into a 4x4 matrix,
embedding `mat.reshape(4, 4)` (entry `(i,j)` is element `4*i+j`). -/
def reshape44 (l : List ℚ) : M4 :=
  Matrix.of fun i j => l.getD (4 * i.val + j.val) 0

/-- Row-major reshape of a flat 12-element buffer into the 3x4 block extended
with the homogeneous row `[0,0,0,1]`, embedding
`np.append(mat.reshape(3,4), [[0,0,0,1]], axis=0)`. -/
def reshape34 (l : List ℚ) : M4 :=
  Matrix.of fun i j =>
    if i.val < 3 then l.getD (4 * i.val + j.val) 0
    else if j.val = 3 then 1 else 0

/-- Column-major reshape of a flat 12-element buffer: embedding
`mat.reshape(4,3).transpose()` (entry `(i,j)` of the 3x4 block is element
`3*j+i`) then extension with `[0,0,0,1]`. -/
def reshape43T (l : List ℚ) : M4 :=
  Matrix.of fun i j =>
    if i.val < 3 then l.getD (3 * j.val + i.val) 0
    else if j.val = 3 then 1 else 0

/-- Embedding of `Mat44.__init__` applied to a flat buffer `mat` of length 12
or 16 (any other length makes numpy `reshape` raise).  Faithfully keeps the
source's behaviour for a 16-element buffer: the code computes
`map = mat.reshape(4, 4)` and then, when `byrow` is false, assigns the
transpose to the local variable `mat` instead of `map`, so the stored matrix
is the row-major reading either way. -/
def mat44_init (l : List ℚ) (byrow : Bool := true)
    (space_from : String := "ras") (space_to : String := "ras")
    (modality_from : String := "T1") (modality_to : Option String := some "T1") :
    Except PyError Mat44 :=
  let modality_to := match modality_to with
    | none => modality_from
    | some m => m
  if l.length = 12 then
    .ok { mat := if byrow then reshape34 l else reshape43T l,
          space_from, space_to, modality_from, modality_to }
  else if l.length = 16 then
    -- `map = mat.reshape(4, 4); if not byrow: mat = mat.transpose()`:
    -- the transposed value is discarded, `self.mat = map` is row-major.
    .ok { mat := reshape44 l, space_from, space_to, modality_from, modality_to }
  else
    .error (.valueError "cannot reshape array")

/-- Embedding of `Mat44.__mul__` (composition `left * right`): modalities and
spaces must chain (`left.modality_from == right.modality_to`,
`left.space_from == right.space_to`), else `ValueError`; the result is
`matmul(left.mat, right.mat)` retagged, with a fresh empty `extra`. -/
def m44mul (l r : Mat44) : Except PyError Mat44 :=
  if l.modality_from ≠ r.modality_to then
    .error (.valueError "Mat44 multiply: modalities must match")
  else if l.space_from ≠ r.space_to then
    .error (.valueError "Mat44 multiply: spaces must match")
  else
    .ok { mat := l.mat * r.mat,
          space_from := r.space_from, space_to := l.space_to,
          modality_from := r.modality_from, modality_to := l.modality_to }

/-- Executable 4x4 matrix inverse over ℚ: `det⁻¹ • adjugate`.  This equals
Mathlib's noncomputable `Inv.inv` on square matrices (`matInv_eq_inv`). -/
def matInv (m : M4) : M4 := (m.det)⁻¹ • m.adjugate

theorem matInv_eq_inv (m : M4) : matInv m = m⁻¹ := by
  rw [Matrix.inv_def, matInv, Ring.inverse_eq_inv']

/-- Embedding of `Mat44.__invert__` (`np.linalg.inv` raises `LinAlgError` on a
singular matrix): the matrix is inverted and the endpoint tags are swapped
(`space_from ↔ space_to`, `modality_from ↔ modality_to`). -/
def m44inv (m : Mat44) : Except PyError Mat44 :=
  if m.mat.det = 0 then .error .singularMatrix
  else
    .ok { mat := matInv m.mat,
          space_from := m.space_to, space_to := m.space_from,
          modality_from := m.modality_to, modality_to := m.modality_from }

/-- Executable absolute value on ℚ (embedding `np.abs`); agrees with
Mathlib's `|q|` by `ratAbs_eq_abs`. -/
def ratAbs (q : ℚ) : ℚ := if q < 0 then -q else q

theorem ratAbs_eq_abs (q : ℚ) : ratAbs q = |q| := by
  rcases lt_or_ge q 0 with h | h
  · simp [ratAbs, h, abs_of_neg h]
  · simp [ratAbs, not_lt.mpr h, abs_of_nonneg h]

/-- Decidable equality of `Except` results (both components decidable). -/
instance exceptDecEq {ε α : Type} [DecidableEq ε] [DecidableEq α] :
    DecidableEq (Except ε α) := fun a b =>
  match a, b with
  | .ok x, .ok y => if h : x = y then isTrue (by rw [h]) else isFalse (by simp [h])
  | .error x, .error y => if h : x = y then isTrue (by rw [h]) else isFalse (by simp [h])
  | .ok _, .error _ => isFalse (by simp)
  | .error _, .ok _ => isFalse (by simp)

/-- Embedding of `np.allclose(a, b)` with numpy's default tolerances
`rtol = 1e-5`, `atol = 1e-8`: all entries satisfy
`|a - b| <= atol + rtol * |b|`. -/
def allclose (a b : M4) : Bool :=
  decide (∀ i j, ratAbs (a i j - b i j) ≤ 1/100000000 + (1/100000) * ratAbs (b i j))

theorem allclose_refl (a : M4) : allclose a a = true := by
  simp only [allclose, decide_eq_true_eq]
  intro i j
  rw [sub_self, show ratAbs 0 = 0 from by simp [ratAbs], ratAbs_eq_abs]
  positivity

/-- Embedding of `Mat44.__eq__`: `np.allclose(self.mat, other.mat)` — only the
numeric coefficients are compared, the tags are not consulted. -/
def m44eq (a b : Mat44) : Bool := allclose a.mat b.mat

/-- Embedding of `Mat44.__ne__`: `not np.allclose(self.mat, other.mat)`. -/
def m44ne (a b : Mat44) : Bool := !(allclose a.mat b.mat)

/-- Embedding of `Mat44.__deepcopy__` (and `__copy__`): the copy is rebuilt
through the constructor with the same matrix and tags, so the `extra` dict of
the source is dropped (the fresh instance gets an empty `extra`). -/
def m44deepcopy (m : Mat44) : Mat44 :=
  { mat := m.mat, space_from := m.space_from, space_to := m.space_to,
    modality_from := m.modality_from, modality_to := m.modality_to }

/-- Embedding of `CONSTANTS.SUPPORTED_SPACES` from `utils/constants.py`. -/
def SUPPORTED_SPACES : List String := ["ras", "ras_tkr", "voxel", "mni305", "mni152"]

/-- Matrix of `CONSTANTS.MNI305_TO_MNI152` from `utils/constants.py`,
with the decimal float literals carried over as exact rationals. -/
def MNI305_TO_MNI152_mat : M4 :=
  !![9975/10000, -73/10000, 176/10000, -429/10000;
     146/10000, 10009/10000, -24/10000, 15496/10000;
     -130/10000, -93/10000, 9971/10000, 11840/10000;
     0, 0, 0, 1]

/-- Embedding of the module-level constant
`MNI305_TO_MNI152 = Mat44(CONSTANTS.MNI305_TO_MNI152, space_from="mni305", space_to="mni152")`
of `core/brain.py`. -/
def MNI305_TO_MNI152 : Mat44 :=
  { mat := MNI305_TO_MNI152_mat, space_from := "mni305", space_to := "mni152" }

/-- State of the three base transforms of a `Brain` object
(`self._vox2ras`, `self._vox2ras_tkr`, `self._ras2mni_305` in `core/brain.py`):
each is `None` until filled, embedded as an `Option`. -/
structure Brain where
  stored_vox2ras : Option Mat44 := none
  stored_vox2ras_tkr : Option Mat44 := none
  stored_ras2mni_305 : Option Mat44 := none
  deriving DecidableEq

/-- Embedding of the property `Brain.vox2ras`: the stored transform when it is
a `Mat44`, else an identity tagged `voxel -> ras` with `extra['missing']=True`. -/
def Brain.vox2ras (b : Brain) : Mat44 :=
  match b.stored_vox2ras with
  | some m => m
  | none => { space_from := "voxel", space_to := "ras", extra := { missing := true } }

/-- Embedding of the property `Brain.vox2ras_tkr`: the stored transform when it
is a `Mat44`, else an identity tagged `voxel -> ras_tkr` flagged missing. -/
def Brain.vox2ras_tkr (b : Brain) : Mat44 :=
  match b.stored_vox2ras_tkr with
  | some m => m
  | none => { space_from := "voxel", space_to := "ras_tkr", extra := { missing := true } }

/-- Embedding of the property `Brain.ras2mni_305`: the stored transform when it
is a `Mat44`, else an identity tagged `ras -> mni305` flagged missing. -/
def Brain.ras2mni_305 (b : Brain) : Mat44 :=
  match b.stored_ras2mni_305 with
  | some m => m
  | none => { space_from := "ras", space_to := "mni305", extra := { missing := true } }

/-- Embedding of the property `Brain.ras2ras_tkr`:
`self.vox2ras_tkr * (~self.vox2ras)`. -/
def Brain.ras2ras_tkr (b : Brain) : Except PyError Mat44 := do
  let vinv ← m44inv b.vox2ras
  m44mul b.vox2ras_tkr vinv

/-- Embedding of the property `Brain.ras2mni_152`:
`MNI305_TO_MNI152 * self.ras2mni_305`. -/
def Brain.ras2mni_152 (b : Brain) : Except PyError Mat44 :=
  m44mul MNI305_TO_MNI152 b.ras2mni_305

/-- Head half of `Brain.get_transform` (`core/brain.py` lines 235-244): the
`space_from -> ras` leg, selected by the `if/elif` chain on `space_from`.  The
final `else` branch is the `voxel` case. -/
def Brain.transform_from (b : Brain) (space_from : String) : Except PyError Mat44 :=
  if space_from = "ras" then
    .ok { space_from := "ras", space_to := "ras" }
  else if space_from = "ras_tkr" then do
    let t ← b.ras2ras_tkr
    let ti ← m44inv t
    .ok (m44deepcopy ti)
  else if space_from = "mni305" then do
    let mi ← m44inv b.ras2mni_305
    .ok (m44deepcopy mi)
  else if space_from = "mni152" then do
    let r ← b.ras2mni_152
    let ri ← m44inv r
    .ok (m44deepcopy ri)
  else
    .ok (m44deepcopy b.vox2ras)

/-- Tail half of `Brain.get_transform` (`core/brain.py` lines 245-254):
composes `ras -> space_to` onto the head transform; the final `else` branch is
the `voxel` case. -/
def Brain.transform_finish (b : Brain) (space_to : String) (transform : Mat44) :
    Except PyError Mat44 :=
  if space_to = "ras" then .ok transform
  else if space_to = "ras_tkr" then do
    let t ← b.ras2ras_tkr
    m44mul t transform
  else if space_to = "mni305" then m44mul b.ras2mni_305 transform
  else if space_to = "mni152" then do
    let r ← b.ras2mni_152
    m44mul r transform
  else do
    let vi ← m44inv b.vox2ras
    m44mul vi transform

/-- Embedding of `Brain.get_transform(space_from, space_to)`: validates both
space names against `SUPPORTED_SPACES` (raising `ValueError` otherwise),
returns a tagged identity when they are equal, and otherwise routes through
`ras` as the hub (head then tail). -/
def Brain.get_transform (b : Brain) (space_from space_to : String) :
    Except PyError Mat44 :=
  if space_from ∉ SUPPORTED_SPACES then .error (.valueError "Invalid space_from")
  else if space_to ∉ SUPPORTED_SPACES then .error (.valueError "Invalid space_to")
  else if space_from = space_to then
    .ok { space_from := space_from, space_to := space_to }
  else do
    let transform ← b.transform_from space_from
    b.transform_finish space_to transform

/-- Embedding of a volume file as `Brain._update_matrices` observes it: the
path (a Python string, embedded as its character list), whether
`os.path.exists` holds, and the two affines the `VolumeWrapper` getters would
produce for it (`utils/volume.py`). -/
structure VolFile where
  name : List Char
  exists_on_disk : Bool := true
  affine : M4 := 1
  tkr_affine : M4 := 1
  deriving DecidableEq

/-- Lower-cased file name, embedding `volume_file.lower()`. -/
def VolFile.lowerName (f : VolFile) : List Char := f.name.map Char.toLower

/-- Embedding of `volume_file.lower().endswith(suffix)`. -/
def VolFile.endsWith (f : VolFile) (suffix : String) : Bool :=
  suffix.toList.isSuffixOf f.lowerName

/-- Embedding of the format inference of `read_volume` (`utils/volume.py`):
the lower-cased file name decides `"nii"` vs `"mgz"`, any other suffix raises
`ValueError`. -/
def volumeFormat (f : VolFile) : Except PyError String :=
  if f.endsWith ".nii.gz" || f.endsWith ".nii" then .ok "nii"
  else if f.endsWith ".mgz" || f.endsWith ".mgh" then .ok "mgz"
  else .error (.valueError "Cannot infer the format of the volume")

/-- Embedding of `VolumeWrapper.get_vox2ras`: the volume's affine tagged
`voxel -> ras`, no extra metadata. -/
def VolFile.vox2ras (f : VolFile) : Mat44 :=
  { mat := f.affine, space_from := "voxel", space_to := "ras" }

/-- Embedding of `VolumeWrapper.get_vox2ras_tkr`: the tkr affine tagged
`voxel -> ras_tkr` with `extra['source_format']` set to the wrapper format. -/
def VolFile.vox2ras_tkr (f : VolFile) (fmt : String) : Mat44 :=
  { mat := f.tkr_affine, space_from := "voxel", space_to := "ras_tkr",
    extra := { source_format := some fmt } }

/-- Flag `vox2ras_needs_update` of `Brain._update_matrices`: true when
`update >= 2` or the stored transform is not yet a `Mat44`. -/
def needs_vox2ras (u : Nat) (b : Brain) : Bool :=
  decide (2 ≤ u) || b.stored_vox2ras.isNone

/-- Flag `vox2ras_tkr_needs_update` of `Brain._update_matrices`: true when
`update >= 2`, or the stored transform is not yet a `Mat44`, or (the `elif`)
`update == 1`, the stored transform's `source_format` is not `"mgz"` and the
candidate file name ends in `.mgz`.  The source compares the strings with
`is not`, which on interned CPython literals behaves as `!=`. -/
def needs_vox2ras_tkr (u : Nat) (b : Brain) (f : VolFile) : Bool :=
  match b.stored_vox2ras_tkr with
  | none => true
  | some m =>
      decide (2 ≤ u) ||
        (decide (u = 1) && decide (m.extra.source_format ≠ some "mgz") &&
          f.endsWith ".mgz")

/-- Loop body of `Brain._update_matrices` (`core/brain.py` lines 54-74): files
that do not exist are skipped; when either transform needs updating the volume
is read (which may raise) and the needed slots are overwritten; otherwise, at
`update < 2`, the loop early-returns with the state unchanged. -/
def update_loop (u : Nat) : List VolFile → Brain → Except PyError Brain
  | [], b => .ok b
  | f :: rest, b =>
    if f.exists_on_disk then
      let nv := needs_vox2ras u b
      let nt := needs_vox2ras_tkr u b f
      if nv || nt then do
        let fmt ← volumeFormat f
        let b' : Brain :=
          { b with
            stored_vox2ras := if nv then some f.vox2ras else b.stored_vox2ras,
            stored_vox2ras_tkr :=
              if nt then some (f.vox2ras_tkr fmt) else b.stored_vox2ras_tkr }
        update_loop u rest b'
      else if u < 2 then .ok b
      else update_loop u rest b
    else update_loop u rest b

/-- Embedding of `Brain._update_matrices(volume_files, update)`: an empty file
list returns immediately, otherwise the loop above runs. -/
def Brain.update_matrices (b : Brain) (volume_files : List VolFile)
    (update : Nat := 1) : Except PyError Brain :=
  if volume_files.length = 0 then .ok b
  else update_loop update volume_files b

/-- Embedding of the `talairach.xfm` handling at the end of `Brain.__init__`
(`core/brain.py` lines 112-117): the `try` block stores the transform read by
`read_xfm`; on any exception the `except` block stores a fresh
`Mat44(space_from="ras", space_to="mni305")` — a plain identity whose `extra`
dict is empty. -/
def init_ras2mni_305 (read_result : Except PyError Mat44) : Mat44 :=
  match read_result with
  | .ok m => m
  | .error _ => { space_from := "ras", space_to := "mni305" }

/-- Value of a pandas cell as `row.get(column, None)` yields it: `none` when
the column is absent, `nan` for a non-finite float, or a finite float. -/
inductive PyCell where
  | none
  | nan
  | val (q : ℚ)
  deriving Repr, DecidableEq

/-- Test for the Python `None` (`y is None`). -/
def PyCell.isNone : PyCell → Bool
  | .none => true
  | _ => false

/-- Coercion of a cell into a float array slot (`np.array(..., dtype=float)`
turns `None` into `nan`); `none` here models a non-finite float. -/
def PyCell.toOpt : PyCell → Option ℚ
  | .val q => some q
  | _ => Option.none

/-- Embedding of `core/vec3.py` class `Vec3`: three coordinates (with `none`
standing for a non-finite float) and a space tag. -/
structure Vec3 where
  x : Option ℚ
  y : Option ℚ
  z : Option ℚ
  space : String
  deriving Repr, DecidableEq

/-- Embedding of `Vec3.__init__` on scalar-or-`None` arguments (the only shape
`add_electrodes` passes): when `y` or `z` is `None`, an `x` of `None` gives the
all-`nan` vector while a float `x` is broadcast to `(x, x, x)`; otherwise the
three cells become the coordinates. -/
def Vec3.ofCells (x y z : PyCell) (space : String) : Vec3 :=
  if x.isNone && (y.isNone || z.isNone) then
    { x := Option.none, y := Option.none, z := Option.none, space }
  else if y.isNone || z.isNone then
    { x := x.toOpt, y := x.toOpt, z := x.toOpt, space }
  else
    { x := x.toOpt, y := y.toOpt, z := z.toOpt, space }

/-- Squared value of `Vec3.length()`: `none` when any coordinate is
non-finite (the float length is then `nan`), else `x*x + y*y + z*z` (the
float length is its nonnegative square root). -/
def Vec3.lengthSq (v : Vec3) : Option ℚ :=
  match v.x, v.y, v.z with
  | some a, some b, some c => some (a * a + b * b + c * c)
  | _, _, _ => Option.none

/-- Embedding of the predicate
`valid_length = lambda l: np.isfinite(l) and l > 0 and l < 500`
of `Brain.add_electrodes` on a scalar length (`none` models a non-finite
float, for which `np.isfinite` is false). -/
def valid_length (l : Option ℚ) : Bool :=
  match l with
  | Option.none => false
  | some lv => decide (0 < lv) && decide (lv < 500)

/-- The test `valid_length(v.length())` expressed on the squared length:
`sqrt` is strictly monotone on nonnegative floats, so `0 < length < 500` holds
exactly when `0 < lengthSq < 250000` (see `validVec_iff_length_sqrt`). -/
def validVec (v : Vec3) : Bool :=
  match v.lengthSq with
  | Option.none => false
  | some s => decide (0 < s) && decide (s < 250000)

/-- Embedding of one row of the electrode table consumed by
`Brain.add_electrodes`, holding every column the loop reads. -/
structure Row where
  Electrode : Int
  Label : Option String := Option.none
  x : PyCell := .none
  y : PyCell := .none
  z : PyCell := .none
  Coord_x : PyCell := .none
  Coord_y : PyCell := .none
  Coord_z : PyCell := .none
  T1R : PyCell := .none
  T1A : PyCell := .none
  T1S : PyCell := .none
  MNI305_x : PyCell := .none
  MNI305_y : PyCell := .none
  MNI305_z : PyCell := .none
  MNI152_x : PyCell := .none
  MNI152_y : PyCell := .none
  MNI152_z : PyCell := .none
  Sphere_x : PyCell := .none
  Sphere_y : PyCell := .none
  Sphere_z : PyCell := .none
  Radius : Option ℚ := Option.none
  SurfaceElectrode : Bool := false
  Hemisphere : Option String := Option.none
  FSLabel : Option String := Option.none
  deriving DecidableEq

/-- Embedding of the electrode contact record built by
`Brain.add_electrode_contact` for one table row. -/
structure ElectrodeContact where
  number : Int
  label : String
  position : Option Vec3
  mni_position : Option Vec3
  sphere_position : Option Vec3
  radius : ℚ
  is_surface : Bool
  hemisphere : String
  deriving DecidableEq

/-- The five candidate vectors of one row, in the resolution order of
`Brain.add_electrodes`: `xyz` (caller space), `Coord_*` (`ras_tkr`),
`T1R/T1A/T1S` (`ras`), `MNI305_*`, `MNI152_*`. -/
def row_candidates (space : String) (row : Row) : List Vec3 :=
  [Vec3.ofCells row.x row.y row.z space,
   Vec3.ofCells row.Coord_x row.Coord_y row.Coord_z "ras_tkr",
   Vec3.ofCells row.T1R row.T1A row.T1S "ras",
   Vec3.ofCells row.MNI305_x row.MNI305_y row.MNI305_z "mni305",
   Vec3.ofCells row.MNI152_x row.MNI152_y row.MNI152_z "mni152"]

/-- Embedding of the per-row body of the `Brain.add_electrodes` loop
(`core/brain.py` lines 771-839): label defaulting, the native-position
`if/elif` priority chain, the independent MNI fallback, the sphere position,
and the hemisphere classification; `add_electrode_contact` is then invoked
unconditionally, so a contact is built for every row. -/
def process_row (space : String) (row : Row) : ElectrodeContact :=
  let label0 := (row.Label.getD "").trim
  let label := if label0 = "" then "NoLabel" ++ toString row.Electrode else label0
  let xyz := Vec3.ofCells row.x row.y row.z space
  let tkr_ras := Vec3.ofCells row.Coord_x row.Coord_y row.Coord_z "ras_tkr"
  let ras := Vec3.ofCells row.T1R row.T1A row.T1S "ras"
  let mni305 := Vec3.ofCells row.MNI305_x row.MNI305_y row.MNI305_z "mni305"
  let mni152 := Vec3.ofCells row.MNI152_x row.MNI152_y row.MNI152_z "mni152"
  let position : Option Vec3 :=
    if validVec xyz then some xyz
    else if validVec tkr_ras then some tkr_ras
    else if validVec ras then some ras
    else if validVec mni305 then some mni305
    else if validVec mni152 then some mni152
    else Option.none
  let mni_pos0 := mni305
  let mni_pos1 := if !(validVec mni_pos0) then mni152 else mni_pos0
  let mni_position : Option Vec3 :=
    if !(validVec mni_pos1) then Option.none else some mni_pos1
  let sphere := Vec3.ofCells row.Sphere_x row.Sphere_y row.Sphere_z "sphere"
  let sphere_position : Option Vec3 :=
    if !(validVec sphere) then Option.none else some sphere
  let fs_label := row.FSLabel.getD "Unknown"
  let hemi0 := (row.Hemisphere.getD "auto").toLower
  let hemisphere :=
    if hemi0.length = 0 || !(hemi0.startsWith "l" || hemi0.startsWith "r") then
      -- `re.match(r"^(left|(ctx|wm)[_-]lh)", fs_label, re.IGNORECASE)` unrolled
      let fl := fs_label.toLower
      if fl.startsWith "left" || fl.startsWith "ctx_lh" || fl.startsWith "ctx-lh"
          || fl.startsWith "wm_lh" || fl.startsWith "wm-lh" then "left"
      else if fl.startsWith "right" || fl.startsWith "ctx_rh" || fl.startsWith "ctx-rh"
          || fl.startsWith "wm_rh" || fl.startsWith "wm-rh" then "right"
      else "auto"
    else if hemi0.startsWith "l" then "left"
    else "right"
  let is_surface := row.SurfaceElectrode
  let radius := match row.Radius with
    | some r => r
    | Option.none => if is_surface then 2 else 1
  { number := row.Electrode, label, position, mni_position, sphere_position,
    radius, is_surface, hemisphere }

/-- Embedding of `Brain.add_electrodes(table, space)`: `space=None` defaults to
`"ras"`, an unsupported space raises `ValueError`, and otherwise every row is
processed into a contact (the contacts are then stored in the
`_electrode_contacts` dict keyed by `number`, later rows overwriting equal
numbers). -/
def add_electrodes (space : Option String) (rows : List Row) :
    Except PyError (List ElectrodeContact) :=
  let sp := space.getD "ras"
  if space.isSome && sp ∉ SUPPORTED_SPACES then
    .error (.valueError "Invalid space")
  else
    .ok (rows.map (process_row sp))

/-- Embedding of `core/keyframe.py` class `SimpleKeyframe` after construction:
for a continuous keyframe the constructor has already dropped every
`(time, value)` pair with a non-finite value, so `values` holds the retained
finite floats; for a discrete keyframe `levelsList` holds the observed level
set. -/
structure SimpleKeyframe where
  name : String
  is_continuous : Bool := true
  values : List ℚ := []
  times : List ℚ := []
  levelsList : List String := []
  deriving DecidableEq

/-- Embedding of the property `SimpleKeyframe.range`:
`np.array([np.min(values), np.max(values)])`, raising on an empty array. -/
def SimpleKeyframe.valueRange (k : SimpleKeyframe) : Except PyError (ℚ × ℚ) :=
  match k.values with
  | [] => .error (.valueError "zero-size array reduction")
  | v :: vs => .ok (vs.foldl min v, vs.foldl max v)

/-- Embedding of the property `SimpleKeyframe.time_range`:
`np.array([np.nanmin(times), np.nanmax(times)])`, raising on an empty array. -/
def SimpleKeyframe.timeRange (k : SimpleKeyframe) : Except PyError (ℚ × ℚ) :=
  match k.times with
  | [] => .error (.valueError "zero-size array reduction")
  | t :: ts => .ok (ts.foldl min t, ts.foldl max t)

/-- Value of `ElectrodeColormap.symmetrical`: the source allows a bool or a
numeric recenter value. -/
inductive SymSetting where
  | bool (b : Bool)
  | num (q : ℚ)
  deriving DecidableEq

/-- Embedding of `core/colormap.py` class `ElectrodeColormap` (the fields the
range computation touches); defaults mirror `__init__`. -/
structure ElectrodeColormap where
  name : String
  value_type : String
  time_range : ℚ × ℚ := (0, 0)
  value_range : ℚ × ℚ := (0, 0)
  value_names : List String := []
  hard_range : Option (ℚ × ℚ) := Option.none
  initialized : Bool := false
  symmetrical : SymSetting := .bool true
  deriving DecidableEq

/-- Embedding of `ElectrodeColormap.update_from_keyframe` (`core/colormap.py`
lines 37-80), kept faithful to the source: in the continuous branch the
running minimum is first written into the local `value_min`, and the next
statement — `value_min = np.nanmax([self._value_range[1], value_max])` in the
source — overwrites that same local with the running maximum, so the stored
pair becomes `(max(old_max, new_max), new_max)`.  The `np.isfinite` guards are
identically true in the rational embedding (keyframe ranges come from
constructor-filtered finite values). -/
def ElectrodeColormap.update_from_keyframe (s : ElectrodeColormap)
    (k : SimpleKeyframe) (ignore_name : Bool := false) :
    Except PyError ElectrodeColormap :=
  if k.name ≠ s.name && !ignore_name then
    .error (.valueError "keyframe name does not match colormap name")
  else if s.value_type ≠ "continuous" && k.is_continuous then
    .error (.valueError "keyframe is continuous but colormap is discrete")
  else if s.value_type ≠ "discrete" && !k.is_continuous then
    .error (.valueError "keyframe is discrete but colormap is continuous")
  else do
    let tr ← k.timeRange
    let t0 := if s.initialized then min s.time_range.1 tr.1 else tr.1
    let t1 := if s.initialized then max s.time_range.2 tr.2 else tr.2
    if k.is_continuous then do
      let r ← k.valueRange
      let vmin1 := if s.initialized then min s.value_range.1 r.1 else r.1
      let vmin2 := if s.initialized then max s.value_range.2 r.2 else vmin1
      let vmax := r.2
      let pair := match s.hard_range with
        | some hr => (max vmin2 hr.1, min vmax hr.2)
        | Option.none => (vmin2, vmax)
      .ok { s with time_range := (t0, t1), value_range := pair, initialized := true }
    else
      let names := s.value_names ++ k.levelsList.filter (· ∉ s.value_names)
      .ok { s with time_range := (t0, t1), value_names := names, initialized := true }

/-- Embedding of `ElectrodeColormap.get_value_range(underlying=False)`
(`core/colormap.py` lines 110-147); the `np.isfinite` branches are identically
true in the rational embedding. -/
def ElectrodeColormap.get_value_range (s : ElectrodeColormap)
    (underlying : Bool := false) : ℚ × ℚ :=
  match (if underlying then Option.none else s.hard_range) with
  | some hr => hr
  | Option.none =>
    if !s.initialized || s.value_type = "discrete" then (-1, 1)
    else
      let symPair : Bool × ℚ := match s.symmetrical with
        | .bool b => (b, 0)
        | .num q => (true, q)
      let is_sym := symPair.1
      let sym := symPair.2
      let vmin := s.value_range.1 - sym
      let vmax := s.value_range.2 - sym
      if is_sym then
        let m0 := max (ratAbs vmin) (ratAbs vmax)
        let m := if m0 = 0 then 1 else m0
        (-m + sym, m + sym)
      else
        let vmax1 := if vmin = vmax then vmax + 1 else vmax
        (vmin + sym, vmax1 + sym)

/-! Theorems. -/

/-- C3: composition of two tagged matrices (`left * right`) fails with an
`IncompatibleTransform` error exactly when `left.modality_from ≠
right.modality_to` or `left.space_from ≠ right.space_to`; when it succeeds the
matrix is `matmul(left.M, right.M)` and the tags are `space_from =
right.space_from`, `space_to = left.space_to`, `modality_from =
right.modality_from`, `modality_to = left.modality_to`. -/
theorem claim_C3_compose_spec (l r : Mat44) :
    ((∃ e, m44mul l r = .error e) ↔
      l.modality_from ≠ r.modality_to ∨ l.space_from ≠ r.space_to) ∧
    (l.modality_from = r.modality_to → l.space_from = r.space_to →
      m44mul l r = .ok { mat := l.mat * r.mat, space_from := r.space_from,
                         space_to := l.space_to, modality_from := r.modality_from,
                         modality_to := l.modality_to, extra := {} }) := by
  unfold m44mul
  by_cases h1 : l.modality_from = r.modality_to <;>
    by_cases h2 : l.space_from = r.space_to <;> simp [h1, h2]

/-- Witness for C3: a compatible concrete pair composes to the retagged
product. -/
theorem claim_C3_compose_spec_witness :
    m44mul { space_from := "voxel", space_to := "ras" }
           { space_from := "mni305", space_to := "voxel" } =
      .ok { mat := 1 * 1, space_from := "mni305", space_to := "ras",
            modality_from := "T1", modality_to := "T1", extra := {} } :=
  (claim_C3_compose_spec _ _).2 rfl rfl

/-- C4: for an invertible tagged matrix, `invert` swaps `space_from ↔
space_to` and `modality_from ↔ modality_to`, making `compose(invert(M), M)`
tag-compatible, and the composed matrix is the 4x4 identity (exactly, in the
rational embedding, hence within any floating tolerance). -/
theorem claim_C4_invert_compose_identity (m : Mat44) (h : m.mat.det ≠ 0) :
    ∃ mi p, m44inv m = .ok mi ∧
      mi.space_from = m.space_to ∧ mi.space_to = m.space_from ∧
      mi.modality_from = m.modality_to ∧ mi.modality_to = m.modality_from ∧
      m44mul mi m = .ok p ∧ p.mat = 1 := by
  refine ⟨{ mat := matInv m.mat, space_from := m.space_to, space_to := m.space_from,
            modality_from := m.modality_to, modality_to := m.modality_from },
          { mat := matInv m.mat * m.mat, space_from := m.space_from,
            space_to := m.space_from, modality_from := m.modality_from,
            modality_to := m.modality_from },
          ?_, rfl, rfl, rfl, rfl, ?_, ?_⟩
  · simp [m44inv, h]
  · simp [m44mul]
  · show matInv m.mat * m.mat = 1
    rw [matInv_eq_inv]
    exact Matrix.nonsing_inv_mul _ (isUnit_iff_ne_zero.mpr h)

/-- Concrete invertible matrix for the C4 witness: identity coefficients with
asymmetric tags. -/
def mC4 : Mat44 :=
  { space_from := "voxel", space_to := "ras", modality_from := "T1", modality_to := "CT" }

/-- Witness for C4 at `mC4`. -/
theorem claim_C4_invert_compose_identity_witness :
    mC4.mat.det ≠ 0 ∧
    ∃ mi p, m44inv mC4 = .ok mi ∧
      mi.space_from = mC4.space_to ∧ mi.space_to = mC4.space_from ∧
      mi.modality_from = mC4.modality_to ∧ mi.modality_to = mC4.modality_from ∧
      m44mul mi mC4 = .ok p ∧ p.mat = 1 :=
  ⟨by simp [mC4], claim_C4_invert_compose_identity mC4 (by simp [mC4])⟩

/-- C9 (evaluation at the failing input): for a 16-element buffer the
constructor ignores `byrow` — the `byrow=False` result equals the row-major
reading instead of its transpose (the source transposes the wrong local
variable) — while for a 12-element buffer both orders correctly produce the
corresponding 3x4 block extended with the homogeneous row `[0,0,0,1]`. -/
theorem claim_C9_byrow_eval :
    (mat44_init [1,2,3,4,5,6,7,8,9,10,11,12,13,14,15,16] false =
      mat44_init [1,2,3,4,5,6,7,8,9,10,11,12,13,14,15,16] true) ∧
    (∃ m : Mat44, mat44_init [1,2,3,4,5,6,7,8,9,10,11,12,13,14,15,16] false = .ok m ∧
      m.mat = !![1,2,3,4; 5,6,7,8; 9,10,11,12; 13,14,15,16] ∧
      m.mat ≠ Matrix.transpose !![1,2,3,4; 5,6,7,8; 9,10,11,12; 13,14,15,16]) ∧
    (∃ m : Mat44, mat44_init [1,2,3,4,5,6,7,8,9,10,11,12] true = .ok m ∧
      m.mat = !![1,2,3,4; 5,6,7,8; 9,10,11,12; 0,0,0,1]) ∧
    (∃ m : Mat44, mat44_init [1,2,3,4,5,6,7,8,9,10,11,12] false = .ok m ∧
      m.mat = !![1,4,7,10; 2,5,8,11; 3,6,9,12; 0,0,0,1]) := by
  refine ⟨rfl, ⟨_, rfl, by decide, by decide⟩, ⟨_, rfl, by decide⟩, ⟨_, rfl, by decide⟩⟩

/-- C10: `Mat44` equality and inequality compare only the numeric
coefficients through `np.allclose` and ignore the space and modality tags
entirely: retagging either operand does not change the comparison. -/
theorem claim_C10_eq_ignores_tags (a b : Mat44) :
    (m44eq a b = true ↔ allclose a.mat b.mat = true) ∧
    (m44ne a b = !(m44eq a b)) ∧
    (∀ (s1 s2 m1 m2 t1 t2 n1 n2 : String) (e1 e2 : Extra),
      m44eq { mat := a.mat, space_from := s1, space_to := s2,
              modality_from := m1, modality_to := m2, extra := e1 }
            { mat := b.mat, space_from := t1, space_to := t2,
              modality_from := n1, modality_to := n2, extra := e2 } = m44eq a b) :=
  ⟨Iff.rfl, rfl, fun _ _ _ _ _ _ _ _ _ _ => rfl⟩

/-- Witness for C10: two identity-coefficient matrices tagged over entirely
different spaces and modalities still compare equal. -/
theorem claim_C10_eq_ignores_tags_witness :
    m44eq { mat := 1, space_from := "voxel", space_to := "ras",
            modality_from := "T1", modality_to := "T1", extra := {} }
          { mat := 1, space_from := "mni305", space_to := "mni152",
            modality_from := "CT", modality_to := "CT", extra := {} } = true :=
  (claim_C10_eq_ignores_tags
      { mat := 1, space_from := "voxel", space_to := "ras",
        modality_from := "T1", modality_to := "T1", extra := {} }
      { mat := 1, space_from := "mni305", space_to := "mni152",
        modality_from := "CT", modality_to := "CT", extra := {} }).1.mpr
    (allclose_refl 1)

/-- Bridge between the squared-length predicate `validVec` and the source's
length predicate: for finite coordinates, `valid_length` of the square-root
length holds exactly when the squared length lies in `(0, 250000)`. -/
theorem validVec_iff_sqrt (v : Vec3) (a b c : ℚ)
    (hx : v.x = some a) (hy : v.y = some b) (hz : v.z = some c) :
    (validVec v = true ↔
      0 < Real.sqrt ((a:ℝ) ^ 2 + (b:ℝ) ^ 2 + (c:ℝ) ^ 2) ∧
        Real.sqrt ((a:ℝ) ^ 2 + (b:ℝ) ^ 2 + (c:ℝ) ^ 2) < 500) := by
  have hs : v.lengthSq = some (a * a + b * b + c * c) := by
    simp [Vec3.lengthSq, hx, hy, hz]
  have hS : (a:ℝ) ^ 2 + (b:ℝ) ^ 2 + (c:ℝ) ^ 2 = ((a * a + b * b + c * c : ℚ) : ℝ) := by
    push_cast
    ring
  rw [validVec, hs, hS]
  simp only [Bool.and_eq_true, decide_eq_true_eq]
  rw [Real.sqrt_pos, Real.sqrt_lt' (by norm_num : (0:ℝ) < 500)]
  constructor
  · rintro ⟨h1, h2⟩
    refine ⟨by exact_mod_cast h1, ?_⟩
    have : ((a * a + b * b + c * c : ℚ) : ℝ) < 250000 := by exact_mod_cast h2
    calc ((a * a + b * b + c * c : ℚ) : ℝ) < 250000 := this
      _ = 500 ^ 2 := by norm_num
  · rintro ⟨h1, h2⟩
    refine ⟨by exact_mod_cast h1, ?_⟩
    have : ((a * a + b * b + c * c : ℚ) : ℝ) < 250000 := by
      calc ((a * a + b * b + c * c : ℚ) : ℝ) < 500 ^ 2 := h2
        _ = 250000 := by norm_num
    exact_mod_cast this

/-- C6 counterexample: the claim requires a length of exactly `0.0` to be
accepted, but the source predicate `l > 0` rejects it. -/
theorem claim_C6_zero_length_counterexample : valid_length (some 0) = false := by
  norm_num [valid_length]

/-- C6 (amended): the predicate accepts a finite length iff it is strictly
between 0 and 500 — so 500.0 is invalid, 499.999 is valid, a non-finite
length is invalid, and length 0.0 is invalid (not valid as the claim
states); on a vector with finite coordinates the test agrees with
`0 < sqrt(x²+y²+z²) < 500`. -/
theorem claim_C6_valid_length_boundary (l : ℚ) (v : Vec3) (a b c : ℚ)
    (hx : v.x = some a) (hy : v.y = some b) (hz : v.z = some c) :
    (valid_length (some l) = true ↔ 0 < l ∧ l < 500) ∧
    valid_length Option.none = false ∧
    valid_length (some 500) = false ∧
    valid_length (some (499999/1000)) = true ∧
    valid_length (some 0) = false ∧
    (validVec v = true ↔
      0 < Real.sqrt ((a:ℝ) ^ 2 + (b:ℝ) ^ 2 + (c:ℝ) ^ 2) ∧
        Real.sqrt ((a:ℝ) ^ 2 + (b:ℝ) ^ 2 + (c:ℝ) ^ 2) < 500) := by
  refine ⟨by simp [valid_length], rfl, by norm_num [valid_length],
    by norm_num [valid_length], by norm_num [valid_length],
    validVec_iff_sqrt v a b c hx hy hz⟩

/-- Witness for C6 at length `1` and vector `(3, 4, 0)`. -/
theorem claim_C6_valid_length_boundary_witness :
    (valid_length (some 1) = true ↔ 0 < (1:ℚ) ∧ (1:ℚ) < 500) ∧
    valid_length Option.none = false ∧
    valid_length (some 500) = false ∧
    valid_length (some (499999/1000)) = true ∧
    valid_length (some 0) = false ∧
    (validVec { x := some 3, y := some 4, z := some 0, space := "ras" } = true ↔
      0 < Real.sqrt (((3:ℚ):ℝ) ^ 2 + ((4:ℚ):ℝ) ^ 2 + ((0:ℚ):ℝ) ^ 2) ∧
        Real.sqrt (((3:ℚ):ℝ) ^ 2 + ((4:ℚ):ℝ) ^ 2 + ((0:ℚ):ℝ) ^ 2) < 500) :=
  claim_C6_valid_length_boundary 1
    { x := some 3, y := some 4, z := some 0, space := "ras" } 3 4 0 rfl rfl rfl

/-- C7 counterexample: on a read failure the stored fallback transform does
NOT carry `extra['missing'] = True` — its `extra` dict is empty. -/
theorem claim_C7_missing_flag_counterexample :
    (init_ras2mni_305 (.error .readFailure)).extra.missing = false := rfl

/-- C7 (amended): when reading the registration file fails at construction,
the stored `ras2mni_305` becomes a plain identity tagged `ras -> mni305` with
an empty `extra` (no `missing` flag), no error propagates, and the downstream
property read returns this unflagged identity (not null, no exception). -/
theorem claim_C7_read_failure_fallback (e : PyError) :
    init_ras2mni_305 (.error e) =
      { mat := 1, space_from := "ras", space_to := "mni305",
        modality_from := "T1", modality_to := "T1", extra := {} } ∧
    (init_ras2mni_305 (.error e)).extra.missing = false ∧
    Brain.ras2mni_305 { stored_ras2mni_305 := some (init_ras2mni_305 (.error e)) } =
      init_ras2mni_305 (.error e) :=
  ⟨rfl, rfl, rfl⟩

/-- Continuous colormap named `v` with no keyframe seen yet (C8 evaluation). -/
def cmap0 : ElectrodeColormap := { name := "v", value_type := "continuous" }

/-- First keyframe for the C8 failing input: values `[-5, 1]`. -/
def kfA : SimpleKeyframe := { name := "v", values := [-5, 1], times := [0, 1] }

/-- Second keyframe for the C8 failing input: values `[0, 2]`. -/
def kfB : SimpleKeyframe := { name := "v", values := [0, 2], times := [0, 1] }

/-- Single keyframe with values `[-2, 5]` (the spec's symmetric example). -/
def kfC : SimpleKeyframe := { name := "v", values := [-2, 5], times := [0, 1] }

/-- C8 (evaluation at the failing input): after ingesting keyframes with
ranges `[-5, 1]` and `[0, 2]`, the running range over all values is `[-5, 2]`
but the stored value range is `(2, 2)` — the source's continuous branch
assigns the running maximum into the local `value_min` — and the displayed
symmetric range is `(-2, 2)` instead of the claimed `(-5, 5)`.  A single
keyframe `[-2, 5]` (the spec's own example) does yield `(-5, 5)`, because the
first update takes the uninitialized branch that bypasses the slip. -/
theorem claim_C8_running_range_eval :
    (∃ s1 s2, cmap0.update_from_keyframe kfA = .ok s1 ∧
      s1.update_from_keyframe kfB = .ok s2 ∧
      s1.value_range = (-5, 1) ∧
      s2.value_range = (2, 2) ∧
      s2.get_value_range = (-2, 2)) ∧
    (∃ s, cmap0.update_from_keyframe kfC = .ok s ∧ s.get_value_range = (-5, 5)) := by
  constructor
  · refine ⟨_, _, rfl, rfl, rfl, rfl, ?_⟩
    norm_num [ElectrodeColormap.get_value_range, ElectrodeColormap.update_from_keyframe,
      cmap0, kfA, kfB, SimpleKeyframe.timeRange, SimpleKeyframe.valueRange, ratAbs, max_def]
    all_goals decide
  · refine ⟨_, rfl, ?_⟩
    norm_num [ElectrodeColormap.get_value_range, ElectrodeColormap.update_from_keyframe,
      cmap0, kfC, SimpleKeyframe.timeRange, SimpleKeyframe.valueRange, ratAbs, max_def]
    all_goals decide

/-- C1: for every processed electrode row, the resolved native position is the
first candidate in the order xyz (caller space), `Coord_*` (tkrRAS),
`T1R/T1A/T1S` (scanner RAS), `MNI305_*`, `MNI152_*` passing the validity test;
when a valid xyz is present it wins outright; when no candidate passes the
position is absent while the contact is still created (every table row yields
a contact in the `add_electrodes` output). -/
theorem claim_C1_electrode_priority (sp : String) (row : Row) :
    ((process_row sp row).position = (row_candidates sp row).find? validVec) ∧
    (validVec (Vec3.ofCells row.x row.y row.z sp) = true →
      (process_row sp row).position = some (Vec3.ofCells row.x row.y row.z sp)) ∧
    ((∀ v ∈ row_candidates sp row, validVec v = false) →
      (process_row sp row).position = Option.none) ∧
    (∀ rows : List Row, row ∈ rows → ∀ cs, add_electrodes (some sp) rows = .ok cs →
      process_row sp row ∈ cs) := by
  have key : (process_row sp row).position = (row_candidates sp row).find? validVec := by
    cases h1 : validVec (Vec3.ofCells row.x row.y row.z sp) <;>
      cases h2 : validVec (Vec3.ofCells row.Coord_x row.Coord_y row.Coord_z "ras_tkr") <;>
      cases h3 : validVec (Vec3.ofCells row.T1R row.T1A row.T1S "ras") <;>
      cases h4 : validVec (Vec3.ofCells row.MNI305_x row.MNI305_y row.MNI305_z "mni305") <;>
      cases h5 : validVec (Vec3.ofCells row.MNI152_x row.MNI152_y row.MNI152_z "mni152") <;>
      simp [process_row, row_candidates, List.find?, h1, h2, h3, h4, h5]
  refine ⟨key, ?_, ?_, ?_⟩
  · intro h1
    rw [key]
    simp [row_candidates, List.find?, h1]
  · intro hall
    rw [key, List.find?_eq_none]
    intro v hv
    simp [hall v hv]
  · intro rows hrow cs hcs
    unfold add_electrodes at hcs
    simp only [Option.getD_some, Option.isSome_some, Bool.true_and] at hcs
    split at hcs
    · exact absurd hcs (by simp)
    · cases hcs
      exact List.mem_map_of_mem _ hrow

/-- Witness for C1: a row carrying both a valid `xyz` and a valid `Coord_*`
triple resolves to the `xyz` value. -/
theorem claim_C1_electrode_priority_witness :
    (process_row "ras" { Electrode := 1, x := .val 1, y := .val 2, z := .val 3,
                         Coord_x := .val 7, Coord_y := .val 8, Coord_z := .val 9 }).position =
      some (Vec3.ofCells (.val 1) (.val 2) (.val 3) "ras") :=
  (claim_C1_electrode_priority "ras"
    { Electrode := 1, x := .val 1, y := .val 2, z := .val 3,
       Coord_x := .val 7, Coord_y := .val 8, Coord_z := .val 9 }).2.1
    (by norm_num [validVec, Vec3.ofCells, Vec3.lengthSq, PyCell.isNone, PyCell.toOpt])

theorem needs_vox2ras_false (u : Nat) (hu : u ≤ 1) (b : Brain)
    (hv : b.stored_vox2ras.isSome = true) : needs_vox2ras u b = false := by
  rcases Option.isSome_iff_exists.mp hv with ⟨x, hx⟩
  simp [needs_vox2ras, hx]
  omega

theorem isSome_of_needs_vox2ras_false (u : Nat) (b : Brain)
    (h : needs_vox2ras u b = false) : b.stored_vox2ras.isSome = true := by
  cases hb : b.stored_vox2ras with
  | none => simp [needs_vox2ras, hb] at h
  | some m => simp [hb]

theorem needs_tkr_false_of_mgz (u : Nat) (hu : u ≤ 1) (b : Brain) (f : VolFile)
    (m : Mat44) (ht : b.stored_vox2ras_tkr = some m)
    (hm : m.extra.source_format = some "mgz") :
    needs_vox2ras_tkr u b f = false := by
  simp [needs_vox2ras_tkr, ht, hm]
  omega

theorem needs_tkr_false_not_mgz (u : Nat) (hu : u ≤ 1) (b : Brain) (f : VolFile)
    (m : Mat44) (ht : b.stored_vox2ras_tkr = some m)
    (hmgz : f.endsWith ".mgz" = false) :
    needs_vox2ras_tkr u b f = false := by
  simp [needs_vox2ras_tkr, ht, hmgz]
  omega

theorem needs_tkr_false_zero (b : Brain) (f : VolFile) (m : Mat44)
    (ht : b.stored_vox2ras_tkr = some m) : needs_vox2ras_tkr 0 b f = false := by
  simp [needs_vox2ras_tkr, ht]

/-- At `update == 1`, a stored tkr transform that the `elif` does not replace
although an `.mgz` candidate is present must itself be MGZ-sourced. -/
theorem tkr_source_of_not_needs (b : Brain) (f : VolFile) (m : Mat44)
    (ht : b.stored_vox2ras_tkr = some m) (hmgz : f.endsWith ".mgz" = true)
    (hn : needs_vox2ras_tkr 1 b f = false) : m.extra.source_format = some "mgz" := by
  simpa [needs_vox2ras_tkr, ht, hmgz] using hn

/-- A file whose lower-cased name ends in `.mgz` is read in `"mgz"` format:
its name can end in none of `.nii.gz`, `.nii`. -/
theorem volumeFormat_mgz (f : VolFile) (h : f.endsWith ".mgz" = true) :
    volumeFormat f = .ok "mgz" := by
  have hmgz : (".mgz".toList) <:+ f.lowerName := by
    simpa [VolFile.endsWith] using h
  have h1 : f.endsWith ".nii.gz" = false := by
    simp only [VolFile.endsWith, List.isSuffixOf_iff_suffix]
    rw [Bool.eq_false_iff]
    intro hc
    rcases List.suffix_or_suffix_of_suffix hmgz (by simpa using hc) with hs | hs
    · exact absurd hs (by decide)
    · exact absurd hs (by decide)
  have h2 : f.endsWith ".nii" = false := by
    simp only [VolFile.endsWith, List.isSuffixOf_iff_suffix]
    rw [Bool.eq_false_iff]
    intro hc
    rcases List.suffix_or_suffix_of_suffix hmgz (by simpa using hc) with hs | hs
    · exact absurd hs (by decide)
    · exact absurd hs (by decide)
  simp [volumeFormat, h1, h2, h]

/-- Once both transforms are filled and the tkr transform is MGZ-sourced, the
loop at `update <= 1` is a no-op: the first existing file needs no update and
triggers the early return. -/
theorem update_loop_stable (u : Nat) (hu : u ≤ 1) (L : List VolFile) :
    ∀ (b : Brain) (m : Mat44), b.stored_vox2ras.isSome = true →
      b.stored_vox2ras_tkr = some m → m.extra.source_format = some "mgz" →
      update_loop u L b = .ok b := by
  induction L with
  | nil => intro b m hv ht hm; rfl
  | cons f rest ih =>
      intro b m hv ht hm
      by_cases hex : f.exists_on_disk
      · simp only [update_loop, hex, if_true,
          needs_vox2ras_false u hu b hv, needs_tkr_false_of_mgz u hu b f m ht hm]
        simp only [Bool.or_self, Bool.false_eq_true, if_false]
        rw [if_pos (by omega : u < 2)]
      · simp only [update_loop, hex, Bool.false_eq_true, if_false]
        exact ih b m hv ht hm

/-- At `update == 0`, a state with both transforms filled is never touched. -/
theorem update_loop_stable_zero (L : List VolFile) :
    ∀ (b : Brain), b.stored_vox2ras.isSome = true →
      b.stored_vox2ras_tkr.isSome = true → update_loop 0 L b = .ok b := by
  induction L with
  | nil => intro b hv ht; rfl
  | cons f rest ih =>
      intro b hv ht
      rcases Option.isSome_iff_exists.mp ht with ⟨m, hm⟩
      by_cases hex : f.exists_on_disk
      · simp only [update_loop, hex, if_true,
          needs_vox2ras_false 0 (by omega) b hv, needs_tkr_false_zero b f m hm]
        simp only [Bool.or_self, Bool.false_eq_true, if_false]
        rw [if_pos (by omega : (0:Nat) < 2)]
      · simp only [update_loop, hex, Bool.false_eq_true, if_false]
        exact ih b hv ht

theorem exc_bind_ok {ε α β : Type} (a : α) (f : α → Except ε β) :
    (do let x ← (Except.ok a : Except ε α); f x) = f a := rfl

/-- After a call at `update == 1` whose head file exists and is `.mgz`, the
resulting tkr transform is MGZ-sourced. -/
theorem update_loop_head_mgz (f : VolFile) (rest : List VolFile) (b0 b1 : Brain)
    (m1 : Mat44) (hex : f.exists_on_disk = true) (hmgz : f.endsWith ".mgz" = true)
    (h : update_loop 1 (f :: rest) b0 = .ok b1)
    (ht : b1.stored_vox2ras_tkr = some m1) :
    m1.extra.source_format = some "mgz" := by
  simp only [update_loop, hex, if_true] at h
  cases hnt : needs_vox2ras_tkr 1 b0 f with
  | true =>
      rw [hnt] at h
      simp only [Bool.or_true, if_true, volumeFormat_mgz f hmgz, exc_bind_ok] at h
      have hv' : (Brain.mk
          (if needs_vox2ras 1 b0 then some f.vox2ras else b0.stored_vox2ras)
          (some (f.vox2ras_tkr "mgz")) b0.stored_ras2mni_305).stored_vox2ras.isSome
          = true := by
        cases hnv : needs_vox2ras 1 b0 with
        | true => simp [hnv]
        | false => simpa [hnv] using isSome_of_needs_vox2ras_false 1 b0 hnv
      have hstb := update_loop_stable 1 le_rfl rest
        (Brain.mk (if needs_vox2ras 1 b0 then some f.vox2ras else b0.stored_vox2ras)
          (some (f.vox2ras_tkr "mgz")) b0.stored_ras2mni_305)
        (f.vox2ras_tkr "mgz") hv' rfl rfl
      rw [h] at hstb
      injection hstb with hb1
      subst hb1
      simp only at ht
      injection ht with hm1
      rw [← hm1]
      rfl
  | false =>
      rw [hnt] at h
      have hm0 : ∃ m0, b0.stored_vox2ras_tkr = some m0 := by
        cases hb : b0.stored_vox2ras_tkr with
        | none => simp [needs_vox2ras_tkr, hb] at hnt
        | some m0 => exact ⟨m0, rfl⟩
      rcases hm0 with ⟨m0, hm0⟩
      have hsrc0 : m0.extra.source_format = some "mgz" :=
        tkr_source_of_not_needs b0 f m0 hm0 hmgz hnt
      cases hnv : needs_vox2ras 1 b0 with
      | true =>
          rw [hnv] at h
          simp only [Bool.true_or, if_true, volumeFormat_mgz f hmgz, exc_bind_ok,
            Bool.false_eq_true, if_false] at h
          have hstb := update_loop_stable 1 le_rfl rest
            (Brain.mk (some f.vox2ras) b0.stored_vox2ras_tkr b0.stored_ras2mni_305)
            m0 (by simp) (by simpa using hm0) hsrc0
          rw [h] at hstb
          injection hstb with hb1
          subst hb1
          simp only [hm0] at ht
          injection ht with hm1
          rw [← hm1]
          exact hsrc0
      | false =>
          rw [hnv] at h
          simp only [Bool.or_self, Bool.false_eq_true, if_false] at h
          rw [if_pos (by omega : (1:Nat) < 2)] at h
          injection h with hb1
          subst hb1
          rw [hm0] at ht
          injection ht with hm1
          rw [← hm1]
          exact hsrc0

/-- Second pass of the loop over the same list is a no-op once both
transforms are filled (`update <= 1`). -/
theorem update_loop_idem (u : Nat) (hu : u ≤ 1) (L : List VolFile) :
    ∀ (b0 b1 : Brain), update_loop u L b0 = .ok b1 →
      b1.stored_vox2ras.isSome = true → b1.stored_vox2ras_tkr.isSome = true →
      update_loop u L b1 = .ok b1 := by
  induction L with
  | nil => intro b0 b1 h hv ht; cases h; rfl
  | cons f rest ih =>
      intro b0 b1 h hv ht
      by_cases hex : f.exists_on_disk
      · rcases Option.isSome_iff_exists.mp ht with ⟨m1, hm1⟩
        have hnv1 : needs_vox2ras u b1 = false := needs_vox2ras_false u hu b1 hv
        have hnt1 : needs_vox2ras_tkr u b1 f = false := by
          rcases Nat.le_one_iff_eq_zero_or_eq_one.mp hu with h0 | h1
          · subst h0; exact needs_tkr_false_zero b1 f m1 hm1
          · subst h1
            cases hmgz : f.endsWith ".mgz" with
            | false => exact needs_tkr_false_not_mgz 1 le_rfl b1 f m1 hm1 hmgz
            | true =>
                exact needs_tkr_false_of_mgz 1 le_rfl b1 f m1 hm1
                  (update_loop_head_mgz f rest b0 b1 m1 hex hmgz h hm1)
        simp only [update_loop, hex, if_true, hnv1, hnt1]
        simp only [Bool.or_self, Bool.false_eq_true, if_false]
        rw [if_pos (by omega : u < 2)]
      · simp only [update_loop, hex, Bool.false_eq_true, if_false] at h ⊢
        exact ih b0 b1 h hv ht

/-- C5: repeating an `update_matrices` call with the same volume-file list at
`update_level <= 1` after a first call that filled both transforms leaves the
stored `vox2ras` and `vox2ras_tkr` unchanged (in particular, a second call
with the same MGZ file at level 1 after `vox2ras_tkr` was MGZ-sourced is a
no-op). -/
theorem claim_C5_update_matrices_idempotent (u : Nat) (L : List VolFile)
    (b0 b1 : Brain) (hu : u ≤ 1) (h : Brain.update_matrices b0 L u = .ok b1)
    (hv : b1.stored_vox2ras.isSome = true)
    (ht : b1.stored_vox2ras_tkr.isSome = true) :
    Brain.update_matrices b1 L u = .ok b1 := by
  unfold Brain.update_matrices at h ⊢
  by_cases hL : L.length = 0
  · rw [if_pos hL] at h ⊢
  · rw [if_neg hL] at h ⊢
    exact update_loop_idem u hu L b0 b1 h hv ht

/-- Concrete existing MGZ file for the C5 witness. -/
def fMgz : VolFile := { name := "brain.mgz".toList }

/-- State after the first `update_matrices` call on `fMgz`. -/
def bC5 : Brain :=
  { stored_vox2ras := some fMgz.vox2ras,
    stored_vox2ras_tkr := some (fMgz.vox2ras_tkr "mgz") }

/-- Witness for C5: one MGZ file, first call fills both transforms, second
call returns the state unchanged. -/
theorem claim_C5_update_matrices_idempotent_witness :
    Brain.update_matrices {} [fMgz] 1 = .ok bC5 ∧
    bC5.stored_vox2ras.isSome = true ∧
    bC5.stored_vox2ras_tkr.isSome = true ∧
    Brain.update_matrices bC5 [fMgz] 1 = .ok bC5 :=
  ⟨rfl, rfl, rfl,
    claim_C5_update_matrices_idempotent 1 [fMgz] {} bC5 (by omega) rfl rfl rfl⟩

theorem MNI305_TO_MNI152_det_ne : MNI305_TO_MNI152_mat.det ≠ 0 := by
  simp [MNI305_TO_MNI152_mat, Matrix.det_succ_row_zero, Fin.sum_univ_succ,
    Matrix.det_fin_three, Fin.succAbove, Matrix.cons_val_zero, Matrix.cons_val_one,
    Matrix.head_cons, Matrix.cons_val_succ, Fin.lt_def, Fin.castSucc, Fin.castAdd,
    Fin.castLE]
  norm_num

/-- The `ras -> space` matrix that the hub construction of `get_transform`
manufactures for each supported target space (proof-layer shorthand for the
matrices of the derived getters). -/
def rasTo (b : Brain) : String → M4
  | "ras_tkr" => b.vox2ras_tkr.mat * matInv b.vox2ras.mat
  | "mni305" => b.ras2mni_305.mat
  | "mni152" => MNI305_TO_MNI152_mat * b.ras2mni_305.mat
  | "voxel" => matInv b.vox2ras.mat
  | _ => 1

/-- A transform carries the given endpoint spaces and the identity modality. -/
def hasTags (m : Mat44) (sf st : String) : Prop :=
  m.space_from = sf ∧ m.space_to = st ∧ m.modality_from = "T1" ∧ m.modality_to = "T1"

/-- The three base transforms carry the canonical tags the code always stores
on them (`VolumeWrapper` getters and the `Mat44` defaults). -/
def Brain.wellTagged (b : Brain) : Prop :=
  hasTags b.vox2ras "voxel" "ras" ∧ hasTags b.vox2ras_tkr "voxel" "ras_tkr" ∧
    hasTags b.ras2mni_305 "ras" "mni305"

/-- The three base transform matrices are invertible. -/
def Brain.invertibleBases (b : Brain) : Prop :=
  b.vox2ras.mat.det ≠ 0 ∧ b.vox2ras_tkr.mat.det ≠ 0 ∧ b.ras2mni_305.mat.det ≠ 0

theorem det_inv_ne_zero (m : M4) (h : m.det ≠ 0) : (m⁻¹).det ≠ 0 := by
  rw [Matrix.det_nonsing_inv, Ring.inverse_eq_inv']
  exact inv_ne_zero h

theorem det_rasTo_ne (b : Brain) (hd : b.invertibleBases) (S : String) :
    (rasTo b S).det ≠ 0 := by
  obtain ⟨h1, h2, h3⟩ := hd
  by_cases hS1 : S = "ras_tkr"
  · subst hS1
    rw [show rasTo b "ras_tkr" = b.vox2ras_tkr.mat * matInv b.vox2ras.mat from rfl,
      matInv_eq_inv, Matrix.det_mul]
    exact mul_ne_zero h2 (det_inv_ne_zero _ h1)
  by_cases hS2 : S = "mni305"
  · subst hS2
    exact h3
  by_cases hS3 : S = "mni152"
  · subst hS3
    rw [show rasTo b "mni152" = MNI305_TO_MNI152_mat * b.ras2mni_305.mat from rfl,
      Matrix.det_mul]
    exact mul_ne_zero MNI305_TO_MNI152_det_ne h3
  by_cases hS4 : S = "voxel"
  · subst hS4
    rw [show rasTo b "voxel" = matInv b.vox2ras.mat from rfl, matInv_eq_inv]
    exact det_inv_ne_zero _ h1
  · rw [show rasTo b S = 1 from by simp [rasTo, hS1, hS2, hS3, hS4]]
    simp

theorem ras2ras_tkr_ok (b : Brain) (hw : b.wellTagged) (hd : b.invertibleBases) :
    b.ras2ras_tkr = .ok { mat := b.vox2ras_tkr.mat * matInv b.vox2ras.mat,
                          space_from := "ras", space_to := "ras_tkr",
                          modality_from := "T1", modality_to := "T1", extra := {} } := by
  obtain ⟨⟨hsf1, hst1, hmf1, hmt1⟩, ⟨hsf2, hst2, hmf2, hmt2⟩, _⟩ := hw
  obtain ⟨h1, _, _⟩ := hd
  have hinv : m44inv b.vox2ras = .ok { mat := matInv b.vox2ras.mat,
                                       space_from := "ras", space_to := "voxel",
                                       modality_from := "T1", modality_to := "T1",
                                       extra := {} } := by
    simp only [m44inv, if_neg h1]
    rw [hsf1, hst1, hmf1, hmt1]
  unfold Brain.ras2ras_tkr
  rw [hinv, exc_bind_ok]
  simp only [m44mul, hmf2, hsf2, hst2, hmt2, matInv_eq_inv]
  simp

theorem ras2mni_152_ok (b : Brain) (hw : b.wellTagged) :
    b.ras2mni_152 = .ok { mat := MNI305_TO_MNI152_mat * b.ras2mni_305.mat,
                          space_from := "ras", space_to := "mni152",
                          modality_from := "T1", modality_to := "T1", extra := {} } := by
  obtain ⟨_, _, ⟨hsf3, hst3, hmf3, hmt3⟩⟩ := hw
  simp only [Brain.ras2mni_152, m44mul, MNI305_TO_MNI152, hmt3, hst3, hsf3, hmf3]
  simp

/-- Head half of `get_transform`: every supported `space_from` produces the
`space_from -> ras` transform `(rasTo space_from)⁻¹` with the expected tags. -/
theorem transform_from_ok (b : Brain) (hw : b.wellTagged) (hd : b.invertibleBases)
    (A : String) (hA : A ∈ SUPPORTED_SPACES) :
    b.transform_from A = .ok { mat := (rasTo b A)⁻¹,
                               space_from := A, space_to := "ras",
                               modality_from := "T1", modality_to := "T1",
                               extra := {} } := by
  have hd' := hd
  obtain ⟨h1, h2, h3⟩ := hd'
  simp only [SUPPORTED_SPACES, List.mem_cons, List.mem_singleton,
    List.not_mem_nil, or_false] at hA
  rcases hA with rfl | rfl | rfl | rfl | rfl
  · -- ras
    unfold Brain.transform_from
    rw [if_pos rfl]
    rw [show rasTo b "ras" = 1 from rfl, inv_one]
  · -- ras_tkr
    unfold Brain.transform_from
    rw [if_neg (by decide), if_pos rfl]
    rw [ras2ras_tkr_ok b hw hd, exc_bind_ok]
    have hdet : (b.vox2ras_tkr.mat * matInv b.vox2ras.mat).det ≠ 0 := by
      have := det_rasTo_ne b hd "ras_tkr"
      rwa [show rasTo b "ras_tkr" = b.vox2ras_tkr.mat * matInv b.vox2ras.mat from rfl]
        at this
    have hmat : matInv (b.vox2ras_tkr.mat * matInv b.vox2ras.mat) =
        (rasTo b "ras_tkr")⁻¹ := by
      rw [show rasTo b "ras_tkr" = b.vox2ras_tkr.mat * matInv b.vox2ras.mat from rfl,
        matInv_eq_inv]
    simp only [m44inv]
    rw [if_neg hdet, exc_bind_ok]
    simp only [m44deepcopy, hmat]
  · -- voxel
    unfold Brain.transform_from
    rw [if_neg (by decide), if_neg (by decide), if_neg (by decide), if_neg (by decide)]
    obtain ⟨⟨hsf1, hst1, hmf1, hmt1⟩, _, _⟩ := hw
    simp only [m44deepcopy, hsf1, hst1, hmf1, hmt1]
    rw [show rasTo b "voxel" = matInv b.vox2ras.mat from rfl, matInv_eq_inv,
      Matrix.nonsing_inv_nonsing_inv _ (isUnit_iff_ne_zero.mpr h1)]
  · -- mni305
    unfold Brain.transform_from
    rw [if_neg (by decide), if_neg (by decide), if_pos rfl]
    obtain ⟨_, _, ⟨hsf3, hst3, hmf3, hmt3⟩⟩ := hw
    simp only [m44inv, if_neg h3, exc_bind_ok, m44deepcopy, matInv_eq_inv,
      hsf3, hst3, hmf3, hmt3]
    rfl
  · -- mni152
    unfold Brain.transform_from
    rw [if_neg (by decide), if_neg (by decide), if_neg (by decide), if_pos rfl]
    rw [ras2mni_152_ok b hw, exc_bind_ok]
    have hdet : (MNI305_TO_MNI152_mat * b.ras2mni_305.mat).det ≠ 0 :=
      det_rasTo_ne b hd "mni152"
    simp only [m44inv, if_neg hdet, exc_bind_ok, m44deepcopy, matInv_eq_inv]
    rfl

/-- Tail half of `get_transform`: composes the `ras -> space_to` leg onto a
transform ending at `ras` with identity modality. -/
theorem transform_finish_ok (b : Brain) (hw : b.wellTagged) (hd : b.invertibleBases)
    (B : String) (hB : B ∈ SUPPORTED_SPACES) (t : Mat44)
    (hts : t.space_to = "ras") (htm : t.modality_to = "T1") (hte : t.extra = {}) :
    b.transform_finish B t = .ok { mat := rasTo b B * t.mat,
                                   space_from := t.space_from, space_to := B,
                                   modality_from := t.modality_from,
                                   modality_to := "T1", extra := {} } := by
  have hd' := hd
  obtain ⟨h1, h2, h3⟩ := hd'
  simp only [SUPPORTED_SPACES, List.mem_cons, List.mem_singleton,
    List.not_mem_nil, or_false] at hB
  rcases hB with rfl | rfl | rfl | rfl | rfl
  · -- ras
    unfold Brain.transform_finish
    rw [if_pos rfl]
    rcases t with ⟨tm, tsf, tst, tmf, tmt, te⟩
    simp only at hts htm hte
    subst hts htm hte
    rw [show rasTo b "ras" = 1 from rfl, Matrix.one_mul]
  · -- ras_tkr
    unfold Brain.transform_finish
    rw [if_neg (by decide), if_pos rfl]
    rw [ras2ras_tkr_ok b hw hd, exc_bind_ok]
    simp only [m44mul, hts, htm]
    rfl
  · -- voxel
    unfold Brain.transform_finish
    rw [if_neg (by decide), if_neg (by decide), if_neg (by decide), if_neg (by decide)]
    obtain ⟨⟨hsf1, hst1, hmf1, hmt1⟩, _, _⟩ := hw
    rw [show rasTo b "voxel" = matInv b.vox2ras.mat from rfl]
    simp only [m44inv]
    rw [if_neg h1, exc_bind_ok]
    simp only [m44mul, hsf1, hst1, hmf1, hmt1, hts, htm]
    simp
  · -- mni305
    unfold Brain.transform_finish
    rw [if_neg (by decide), if_neg (by decide), if_pos rfl]
    obtain ⟨_, _, ⟨hsf3, hst3, hmf3, hmt3⟩⟩ := hw
    simp only [m44mul, hsf3, hst3, hmf3, hmt3, hts, htm]
    rfl
  · -- mni152
    unfold Brain.transform_finish
    rw [if_neg (by decide), if_neg (by decide), if_neg (by decide), if_pos rfl]
    rw [ras2mni_152_ok b hw, exc_bind_ok]
    simp only [m44mul, hts, htm]
    rfl

/-- For distinct supported spaces, `get_transform` succeeds and returns the
two-hop hub composition `rasTo space_to * (rasTo space_from)⁻¹` tagged
`space_from -> space_to` with identity modality. -/
theorem get_transform_ok (b : Brain) (hw : b.wellTagged) (hd : b.invertibleBases)
    (A B : String) (hA : A ∈ SUPPORTED_SPACES) (hB : B ∈ SUPPORTED_SPACES)
    (hne : A ≠ B) :
    b.get_transform A B = .ok { mat := rasTo b B * (rasTo b A)⁻¹,
                                space_from := A, space_to := B,
                                modality_from := "T1", modality_to := "T1",
                                extra := {} } := by
  unfold Brain.get_transform
  rw [if_neg (not_not_intro hA), if_neg (not_not_intro hB), if_neg hne]
  rw [transform_from_ok b hw hd A hA, exc_bind_ok]
  exact transform_finish_ok b hw hd B hB _ rfl rfl rfl

/-- C2: for every ordered pair of supported spaces, with invertible base
transforms, `get_transform(A, B)` and `get_transform(B, A)` both succeed and
their matrices compose to the 4x4 identity (exactly, in the rational
embedding). -/
theorem claim_C2_get_transform_round_trip (b : Brain) (A B : String)
    (hw : b.wellTagged) (hd : b.invertibleBases)
    (hA : A ∈ SUPPORTED_SPACES) (hB : B ∈ SUPPORTED_SPACES) :
    ∃ F G, b.get_transform A B = .ok F ∧ b.get_transform B A = .ok G ∧
      F.mat * G.mat = 1 := by
  by_cases hne : A = B
  · subst hne
    have hid : b.get_transform A A =
        .ok { mat := 1, space_from := A, space_to := A,
              modality_from := "T1", modality_to := "T1", extra := {} } := by
      unfold Brain.get_transform
      rw [if_neg (not_not_intro hA), if_neg (not_not_intro hA), if_pos rfl]
    exact ⟨_, _, hid, hid, by simp⟩
  · have hF := get_transform_ok b hw hd A B hA hB hne
    have hG := get_transform_ok b hw hd B A hB hA (Ne.symm hne)
    refine ⟨_, _, hF, hG, ?_⟩
    show (rasTo b B * (rasTo b A)⁻¹) * (rasTo b A * (rasTo b B)⁻¹) = 1
    have hA' : IsUnit (rasTo b A).det := isUnit_iff_ne_zero.mpr (det_rasTo_ne b hd A)
    have hB' : IsUnit (rasTo b B).det := isUnit_iff_ne_zero.mpr (det_rasTo_ne b hd B)
    rw [Matrix.mul_assoc, ← Matrix.mul_assoc ((rasTo b A)⁻¹),
      Matrix.nonsing_inv_mul _ hA', Matrix.one_mul, Matrix.mul_nonsing_inv _ hB']

/-- Witness for C2: the empty brain state (all three bases missing, hence
identity matrices with canonical tags) at the pair `("voxel", "mni152")`. -/
theorem claim_C2_get_transform_round_trip_witness :
    ∃ F G, Brain.get_transform {} "voxel" "mni152" = .ok F ∧
      Brain.get_transform {} "mni152" "voxel" = .ok G ∧ F.mat * G.mat = 1 :=
  claim_C2_get_transform_round_trip {} "voxel" "mni152"
    ⟨⟨rfl, rfl, rfl, rfl⟩, ⟨rfl, rfl, rfl, rfl⟩, ⟨rfl, rfl, rfl, rfl⟩⟩
    ⟨by simp [Brain.vox2ras], by simp [Brain.vox2ras_tkr], by simp [Brain.ras2mni_305]⟩
    (by decide) (by decide)

end ThreeBrainPy
